import Mathlib

/-!
Verification of `mandrill/mayhem_25.py`: an asyncio pub/sub bridge that moves
messages from a threaded consumer callback into a single event loop, fans each
message out into concurrent sub-tasks (`save`, `restart_host`), and gates the
terminal acknowledgment (`cleanup`) on an `asyncio.Event` that is set only
after `asyncio.gather` over the sub-tasks returns.

The embedding translates:
 * the `PubSubMessage` attrs class and its `__attrs_post_init__`;
 * the bodies of `save`, `restart_host`, `handle_results`, `publish_sync`;
 * the per-message pipeline (`handle_message` + `cleanup` + the two sub-tasks)
   as a small-step state machine whose atomic blocks are the code regions
   between `await` suspension points of the asyncio event loop;
 * the ingest loop `get_from_queue` over `GLOBAL_QUEUE` as a system-level
   step relation (dequeue spawns a pipeline task without awaiting it);
 * the cross-thread injection `asyncio.run_coroutine_threadsafe(add_to_queue
   (msg), loop)` from `consume_sync`: the event loop executes the injected
   `add_to_queue` coroutines serially, in an order that interleaves each
   submitting thread's submissions while preserving per-thread order;
 * the `publish` loop body `await loop.run_in_executor(executor, publish_sync)`
   which has no surrounding try/except.
-/

/-! ## PubSubMessage (`@attr.s class PubSubMessage`, lines 46-53) -/

structure PubSubMessage where
  instance_name : String
  message_id : String
  hostname : String
  deriving DecidableEq

/-- Construction of a `PubSubMessage`: attrs sets `instance_name` and
`message_id` from the keyword arguments, then `__attrs_post_init__` assigns
`hostname = f'{self.instance_name}.example.net'`. -/
def mkPubSubMessage (instance_name message_id : String) : PubSubMessage :=
  { instance_name := instance_name
    message_id := message_id
    hostname := instance_name ++ ".example.net" }

/-- The class is declared `@attr.s` with no arguments; the attrs default is
`frozen=False`, so instances are not frozen. -/
def pubsub_message_frozen : Bool := false

/-- attrs semantics of attribute assignment on an instance: a frozen class
raises `FrozenInstanceError` from `__setattr__`; a non-frozen class performs
the assignment. -/
def setattr_instance_name (m : PubSubMessage) (v : String) :
    Except String PubSubMessage :=
  if pubsub_message_frozen then Except.error "FrozenInstanceError"
  else Except.ok { m with instance_name := v }

/-! ## Sub-task bodies (`restart_host` lines 89-102, `save` lines 105-113)

Each body is modelled as the list of effects it performs (sleeps and log
lines) together with an optional raised exception message.  `rand_int` is the
value of `random.randrange(1, 3)` drawn inside `restart_host`; `d` is the
value of the `random.randrange(1,3)` / `random.random()` sleep duration. -/

inductive Eff where
  | sleepE (d : Nat)
  | logE (s : String)
  deriving DecidableEq

/-- Abbreviated attrs repr of a message (`message_id` and `hostname` are
declared `repr=False`, so only `instance_name` is shown). -/
def pubsubRepr (m : PubSubMessage) : String :=
  "PubSubMessage(instance_name=" ++ m.instance_name ++ ")"

/-- `restart_host(msg)`: draws `rand_int = random.randrange(1, 3)`; if it is
2, raises `Exception(f'Could not restart {msg.hostname}')` before doing
anything else; otherwise sleeps and logs `Restarted {msg.hostname}`. -/
def restart_host (msg : PubSubMessage) (rand_int d : Nat) :
    List Eff × Option String :=
  if rand_int = 2 then
    ([], some ("Could not restart " ++ msg.hostname))
  else
    ([Eff.sleepE d, Eff.logE ("Restarted " ++ msg.hostname)], none)

/-- `save(msg)`: sleeps `random.random()` and logs; it has no raise
statement, so it never fails. -/
def save (msg : PubSubMessage) (d : Nat) : List Eff × Option String :=
  ([Eff.sleepE d, Eff.logE ("Saved " ++ pubsubRepr msg ++ " into database")],
   none)

/-! ## Results aggregation (`handle_results`, lines 132-136) -/

inductive SubResult where
  | ok
  | exc (reason : String)
  deriving DecidableEq

/-- `handle_results(results)`: iterates over the gathered results and logs
`Caught exception: {result}` for each result that is an `Exception`.  It
raises nothing and returns nothing; its observable output is the log lines. -/
def handle_results (results : List SubResult) : List String :=
  results.filterMap fun r =>
    match r with
    | SubResult.exc e => some ("Caught exception: " ++ e)
    | SubResult.ok => none

/-! ## The per-message pipeline as a small-step machine

`handle_message(pubsub_msg)` (lines 139-160) parses the payload, creates an
`asyncio.Event`, spawns `cleanup(pubsub_msg, event)` with `create_task`,
awaits `asyncio.gather(save(msg), restart_host(msg), return_exceptions=True)`,
runs `handle_results`, and sets the event.  `cleanup` (lines 116-129) awaits
the event, sleeps, then calls `pubsub_msg.ack()`.

Each task's program counter advances over its atomic blocks (the code between
`await` suspension points); the event loop nondeterministically interleaves
the runnable tasks.  The payload is the already-`json.loads`ed dict, modelled
as an association list; the one parse failure mode exercised by the code is
the `KeyError` from `msg_data['instance_name']`.  `fail` is the oracle for
`random.randrange(1, 3) == 2` inside `restart_host`. -/

inductive MainPC where
  | start
  | awaitingGather
  | done
  | raisedKeyError
  deriving DecidableEq

inductive SavePC where
  | notStarted
  | running
  | sleeping
  | done
  deriving DecidableEq

inductive RestartPC where
  | notStarted
  | running
  | sleeping
  | done
  | raised
  deriving DecidableEq

inductive CleanupPC where
  | notCreated
  | waiting
  | sleeping
  | done
  deriving DecidableEq

structure St where
  payload : List (String × String)
  messageId : String
  fail : Bool
  main : MainPC
  save : SavePC
  restart : RestartPC
  cleanup : CleanupPC
  eventSet : Bool
  ackCount : Nat
  results : Option (List SubResult)
  msg : Option PubSubMessage
  deriving DecidableEq

/-- State of a freshly created `handle_message(pubsub_msg)` task: nothing has
run yet, no sub-task exists, the event does not exist, no ack has happened. -/
def initSt (p : List (String × String)) (mid : String) (f : Bool) : St :=
  ⟨p, mid, f, MainPC.start, SavePC.notStarted, RestartPC.notStarted,
    CleanupPC.notCreated, false, 0, none, none⟩

/-- The hostname used in the exception text of `restart_host`. -/
def hostnameOf (m : Option PubSubMessage) : String :=
  match m with
  | some msg => msg.hostname
  | none => ""

/-- The gather slot of `restart_host`: an `Exception` value when the task
raised, otherwise its (None) return value. -/
def restartRes (rt : RestartPC) (m : Option PubSubMessage) : SubResult :=
  if rt = RestartPC.raised then
    SubResult.exc ("Could not restart " ++ hostnameOf m)
  else SubResult.ok

/-- Scheduler-visible actions of one pipeline. -/
inductive Act where
  | dispatch
  | parseFail
  | saveStart
  | saveDone
  | restartRaise
  | restartStart
  | restartDone
  | setEvent
  | cleanupWake
  | ack
  deriving DecidableEq

/-- One atomic step of the event loop inside a single message pipeline.

* `parseOk`: `handle_message` runs from its start to the suspension inside
  `gather`: it reads `msg_data['instance_name']` (present), builds the
  `PubSubMessage`, creates the event (unset), `create_task`s `cleanup`
  (which will block in `event.wait()`), and starts the two gathered
  sub-tasks.
* `parseErr`: `msg_data['instance_name']` raises `KeyError`; the coroutine
  terminates with the exception before any of that.
* `saveSleep`/`saveDone`: `save` enters its sleep / wakes, logs, returns.
* `restartRaiseStep`: with `rand_int == 2`, `restart_host` raises
  immediately. `restartSleep`/`restartDoneStep`: otherwise it sleeps / wakes,
  logs, returns.
* `gatherSet`: both gathered tasks are terminal, so the `await gather`
  returns `[save result, restart result]` (exceptions as values, by
  `return_exceptions=True`); `handle_message` runs `handle_results` and
  `event.set()` and returns.
* `cleanupWake`: `event.wait()` returns once the event is set; `cleanup`
  enters its sleep.
* `ackStep`: `cleanup` wakes and calls `pubsub_msg.ack()`, then returns. -/
inductive Step : St → Act → St → Prop where
  | parseOk (p : List (String × String)) (mid : String) (f : Bool)
      (ev : Bool) (ak : Nat)
      (rs : Option (List SubResult)) (m : Option PubSubMessage) (name : String)
      (h : p.lookup "instance_name" = some name) :
      Step ⟨p, mid, f, MainPC.start, SavePC.notStarted, RestartPC.notStarted,
          CleanupPC.notCreated, ev, ak, rs, m⟩ Act.dispatch
        ⟨p, mid, f, MainPC.awaitingGather, SavePC.running, RestartPC.running,
          CleanupPC.waiting, false, ak, none, some (mkPubSubMessage name mid)⟩
  | parseErr (p : List (String × String)) (mid : String) (f : Bool)
      (sv : SavePC) (rt : RestartPC) (cl : CleanupPC) (ev : Bool) (ak : Nat)
      (rs : Option (List SubResult)) (m : Option PubSubMessage)
      (h : p.lookup "instance_name" = none) :
      Step ⟨p, mid, f, MainPC.start, sv, rt, cl, ev, ak, rs, m⟩ Act.parseFail
        ⟨p, mid, f, MainPC.raisedKeyError, sv, rt, cl, ev, ak, rs, m⟩
  | saveSleep (p : List (String × String)) (mid : String) (f : Bool)
      (mn : MainPC) (rt : RestartPC) (cl : CleanupPC) (ev : Bool) (ak : Nat)
      (rs : Option (List SubResult)) (m : Option PubSubMessage) :
      Step ⟨p, mid, f, mn, SavePC.running, rt, cl, ev, ak, rs, m⟩ Act.saveStart
        ⟨p, mid, f, mn, SavePC.sleeping, rt, cl, ev, ak, rs, m⟩
  | saveWake (p : List (String × String)) (mid : String) (f : Bool)
      (mn : MainPC) (rt : RestartPC) (cl : CleanupPC) (ev : Bool) (ak : Nat)
      (rs : Option (List SubResult)) (m : Option PubSubMessage) :
      Step ⟨p, mid, f, mn, SavePC.sleeping, rt, cl, ev, ak, rs, m⟩ Act.saveDone
        ⟨p, mid, f, mn, SavePC.done, rt, cl, ev, ak, rs, m⟩
  | restartRaiseStep (p : List (String × String)) (mid : String)
      (mn : MainPC) (sv : SavePC) (cl : CleanupPC) (ev : Bool) (ak : Nat)
      (rs : Option (List SubResult)) (m : Option PubSubMessage) :
      Step ⟨p, mid, true, mn, sv, RestartPC.running, cl, ev, ak, rs, m⟩
        Act.restartRaise
        ⟨p, mid, true, mn, sv, RestartPC.raised, cl, ev, ak, rs, m⟩
  | restartSleep (p : List (String × String)) (mid : String)
      (mn : MainPC) (sv : SavePC) (cl : CleanupPC) (ev : Bool) (ak : Nat)
      (rs : Option (List SubResult)) (m : Option PubSubMessage) :
      Step ⟨p, mid, false, mn, sv, RestartPC.running, cl, ev, ak, rs, m⟩
        Act.restartStart
        ⟨p, mid, false, mn, sv, RestartPC.sleeping, cl, ev, ak, rs, m⟩
  | restartDoneStep (p : List (String × String)) (mid : String) (f : Bool)
      (mn : MainPC) (sv : SavePC) (cl : CleanupPC) (ev : Bool) (ak : Nat)
      (rs : Option (List SubResult)) (m : Option PubSubMessage) :
      Step ⟨p, mid, f, mn, sv, RestartPC.sleeping, cl, ev, ak, rs, m⟩
        Act.restartDone
        ⟨p, mid, f, mn, sv, RestartPC.done, cl, ev, ak, rs, m⟩
  | gatherSet (p : List (String × String)) (mid : String) (f : Bool)
      (rt : RestartPC) (cl : CleanupPC) (ev : Bool) (ak : Nat)
      (rs : Option (List SubResult)) (m : Option PubSubMessage)
      (hrt : rt = RestartPC.done ∨ rt = RestartPC.raised) :
      Step ⟨p, mid, f, MainPC.awaitingGather, SavePC.done, rt, cl, ev, ak, rs, m⟩
        Act.setEvent
        ⟨p, mid, f, MainPC.done, SavePC.done, rt, cl, true, ak,
          some [SubResult.ok, restartRes rt m], m⟩
  | cleanupWakeStep (p : List (String × String)) (mid : String) (f : Bool)
      (mn : MainPC) (sv : SavePC) (rt : RestartPC) (ak : Nat)
      (rs : Option (List SubResult)) (m : Option PubSubMessage) :
      Step ⟨p, mid, f, mn, sv, rt, CleanupPC.waiting, true, ak, rs, m⟩
        Act.cleanupWake
        ⟨p, mid, f, mn, sv, rt, CleanupPC.sleeping, true, ak, rs, m⟩
  | ackStep (p : List (String × String)) (mid : String) (f : Bool)
      (mn : MainPC) (sv : SavePC) (rt : RestartPC) (ev : Bool) (ak : Nat)
      (rs : Option (List SubResult)) (m : Option PubSubMessage) :
      Step ⟨p, mid, f, mn, sv, rt, CleanupPC.sleeping, ev, ak, rs, m⟩ Act.ack
        ⟨p, mid, f, mn, sv, rt, CleanupPC.done, ev, ak + 1, rs, m⟩

/-- Executions: a trace of actions taken by the event loop. -/
inductive Exec : St → List Act → St → Prop where
  | refl (s : St) : Exec s [] s
  | cons {s s₁ s₂ : St} {a : Act} {tr : List Act}
      (hstep : Step s a s₁) (hrest : Exec s₁ tr s₂) : Exec s (a :: tr) s₂

/-! ## Reachability invariant of one pipeline -/

/-- Facts holding in every state reachable from `initSt`: the immutable
fields never change; the sub-tasks and the cleanup task exist only after
dispatch; the event is set only by the post-gather block of `handle_message`;
`cleanup` proceeds past `event.wait()` only once the event is set; the ack
happens exactly when `cleanup` has finished; `restart_host` raises exactly
when its random draw said so. -/
structure PipeInv (s0 s : St) : Prop where
  constP : s.payload = s0.payload
  constM : s.messageId = s0.messageId
  constF : s.fail = s0.fail
  startI : s.main = MainPC.start →
    s.save = SavePC.notStarted ∧ s.restart = RestartPC.notStarted ∧
    s.cleanup = CleanupPC.notCreated ∧ s.eventSet = false ∧
    s.results = none ∧ s.msg = none
  raisedI : s.main = MainPC.raisedKeyError →
    s.save = SavePC.notStarted ∧ s.restart = RestartPC.notStarted ∧
    s.cleanup = CleanupPC.notCreated ∧ s.eventSet = false ∧
    s.results = none ∧ s.msg = none ∧
    s.payload.lookup "instance_name" = none
  awaitI : s.main = MainPC.awaitingGather →
    s.save ≠ SavePC.notStarted ∧ s.restart ≠ RestartPC.notStarted ∧
    s.cleanup = CleanupPC.waiting ∧ s.eventSet = false ∧ s.results = none ∧
    ∃ name, s.payload.lookup "instance_name" = some name ∧
      s.msg = some (mkPubSubMessage name s.messageId)
  doneI : s.main = MainPC.done →
    s.save = SavePC.done ∧
    (s.restart = RestartPC.done ∨ s.restart = RestartPC.raised) ∧
    s.cleanup ≠ CleanupPC.notCreated ∧ s.eventSet = true ∧
    s.results = some [SubResult.ok, restartRes s.restart s.msg] ∧
    ∃ name, s.payload.lookup "instance_name" = some name ∧
      s.msg = some (mkPubSubMessage name s.messageId)
  evI : s.eventSet = true → s.main = MainPC.done
  cleanupI : s.cleanup = CleanupPC.sleeping ∨ s.cleanup = CleanupPC.done →
    s.main = MainPC.done
  ackI : s.ackCount = if s.cleanup = CleanupPC.done then 1 else 0
  failR : s.restart = RestartPC.raised → s.fail = true
  failOkI : s.restart = RestartPC.sleeping ∨ s.restart = RestartPC.done →
    s.fail = false

/-! ## Counting actions along a trace -/

/-- Number of occurrences of action `a` in a trace. -/
def actCount (a : Act) : List Act → Nat
  | [] => 0
  | b :: tr => (if b = a then 1 else 0) + actCount a tr

/-- 1 when `save` has returned, else 0. -/
def saveDoneN (s : St) : Nat := if s.save = SavePC.done then 1 else 0

/-- 1 when `restart_host` has reached a terminal state, else 0. -/
def restartTermN (s : St) : Nat :=
  if s.restart = RestartPC.done ∨ s.restart = RestartPC.raised then 1 else 0

/-- 1 when `cleanup` has returned, else 0. -/
def cleanupDoneN (s : St) : Nat := if s.cleanup = CleanupPC.done then 1 else 0

/-! ## The ingest loop (`get_from_queue`, lines 163-170)

`get_from_queue` runs forever: it awaits `GLOBAL_QUEUE.get()` and then calls
`asyncio.create_task(handle_message(pubsub_msg))` *without awaiting the
task*, then loops back to `get()`.  A system state is the queue contents plus
the states of all pipeline tasks created so far, in creation order.  A system
step is either the ingest loop dequeuing the head item and spawning its
pipeline (after which the loop is immediately back at `get()`), or the event
loop advancing any one existing pipeline. -/

structure RawMsg where
  payload : List (String × String)
  message_id : String
  fail : Bool
  deriving DecidableEq

/-- The pipeline task that `asyncio.create_task(handle_message(pubsub_msg))`
creates for a dequeued raw message. -/
def initRaw (r : RawMsg) : St := initSt r.payload r.message_id r.fail

structure SysSt where
  queue : List RawMsg
  pipelines : List St
  deriving DecidableEq

inductive SysStep : SysSt → SysSt → Prop where
  | dequeue (r : RawMsg) (rest : List RawMsg) (ps : List St) :
      SysStep ⟨r :: rest, ps⟩ ⟨rest, ps ++ [initRaw r]⟩
  | pipe (q : List RawMsg) (pre post : List St) (st st' : St) (a : Act)
      (hs : Step st a st') :
      SysStep ⟨q, pre ++ st :: post⟩ ⟨q, pre ++ st' :: post⟩

inductive SysExec : SysSt → SysSt → Prop where
  | refl (x : SysSt) : SysExec x x
  | cons {x y z : SysSt} (h : SysStep x y) (h2 : SysExec y z) : SysExec x z

/-! ## Cross-thread injection into `GLOBAL_QUEUE`
(`add_to_queue` lines 173-177, `consume_sync` lines 180-194)

Each delivery callback runs on a transport worker thread and calls
`asyncio.run_coroutine_threadsafe(add_to_queue(pubsub_msg), loop)` exactly
once per delivered message.  The loop's thread-safe call queue executes the
injected `add_to_queue` coroutines one at a time on the event loop, in an
order that interleaves the per-thread submission orders while preserving each
single thread's order; each execution performs `GLOBAL_QUEUE.put(msg)`.
`Merge ls out` is that guarantee: `ls` lists, per thread, the items the
thread injects (in its order), and `out` is an order in which the event loop
can run the corresponding `put`s. -/

inductive Merge : List (List (Nat × String)) → List (Nat × String) → Prop where
  | nil (ls : List (List (Nat × String))) (h : ∀ l ∈ ls, l = []) : Merge ls []
  | cons (ls : List (List (Nat × String))) (i : Nat)
      (x : Nat × String) (xs : List (Nat × String)) (out : List (Nat × String))
      (h : i < ls.length) (hx : ls[i] = x :: xs)
      (hm : Merge (ls.set i xs) out) : Merge ls (x :: out)

/-- `asyncio.Queue.put`: appends the item at the tail (FIFO). -/
def putQ (q : List (Nat × String)) (x : Nat × String) : List (Nat × String) :=
  q ++ [x]

/-- `asyncio.Queue.get`: removes and returns the head item, if any. -/
def getQ (q : List (Nat × String)) :
    Option ((Nat × String) × List (Nat × String)) :=
  match q with
  | [] => none
  | x :: xs => some (x, xs)

/-- Draining a queue by repeated `get()` until it is empty. -/
def drainQ : List (Nat × String) → List (Nat × String)
  | [] => []
  | x :: xs => x :: drainQ xs

/-! ## `publish_sync` (lines 79-86) and the `publish` loop (lines 197-207) -/

/-- `string.ascii_lowercase`. -/
def ascii_lowercase : List Char := "abcdefghijklmnopqrstuvwxyz".toList

/-- `string.digits`. -/
def digits : List Char := "0123456789".toList

/-- `CHOICES = string.ascii_lowercase + string.digits` (line 42). -/
def CHOICES : List Char := ascii_lowercase ++ digits

/-- One draw of `random.choices(CHOICES, ...)`: an element of the population,
selected by the random source `n`. -/
def choiceChar (n : Nat) : Char := CHOICES.getD (n % CHOICES.length) 'a'

/-- `''.join(random.choices(CHOICES, k=4))`, with `rand i` the random source
for the `i`-th draw. -/
def randomName (rand : Nat → Nat) : String :=
  String.mk ((List.range 4).map fun i => choiceChar (rand i))

/-- `bytes(json.dumps({'instance_name': name}), encoding='utf-8')`: the UTF-8
JSON object published for one message (names drawn from `CHOICES` need no
JSON escaping). -/
def json_dumps_payload (name : String) : String :=
  "\x7b\"instance_name\": \"" ++ name ++ "\"\x7d"

/-- `publish_sync()`: `for msg in range(1, 6)` builds and publishes one JSON
payload per iteration — exactly 5 messages.  `rand m i` is the random source
for the `i`-th character of the `m`-th message. -/
def publish_sync (rand : Nat → Nat → Nat) : List String :=
  (List.range' 1 5).map fun m =>
    json_dumps_payload (randomName (rand m))

/-- Outcome of one iteration of the `while True` loop in `publish`.  The body
is `await loop.run_in_executor(executor, publish_sync)` followed by
`await asyncio.sleep(3)`, with no try/except: if the offloaded `publish_sync`
raises, awaiting its future re-raises the exception inside `publish`, which
propagates and terminates the loop; only a normal return reaches the sleep
and the next iteration. -/
inductive PublishLoopStatus where
  | running
  | dead (exc : String)
  deriving DecidableEq

def publish_iteration (outcome : Except String Unit) : PublishLoopStatus :=
  match outcome with
  | Except.ok _ => PublishLoopStatus.running
  | Except.error e => PublishLoopStatus.dead e

/-- The `publish` loop over a stream of per-iteration `publish_sync`
outcomes: returns the loop status together with the number of completed
iterations.  Iterations after a raising one never run. -/
def publish_loop : List (Except String Unit) → PublishLoopStatus × Nat
  | [] => (PublishLoopStatus.running, 0)
  | o :: rest =>
    match publish_iteration o with
    | PublishLoopStatus.running =>
      let r := publish_loop rest
      (r.1, r.2 + 1)
    | PublishLoopStatus.dead e => (PublishLoopStatus.dead e, 0)

/-! ## Concrete runs used as witnesses -/

def pW : List (String × String) := [("instance_name", "ab12")]

def mkW : PubSubMessage := mkPubSubMessage "ab12" "m1"

def trGood : List Act :=
  [Act.dispatch, Act.saveStart, Act.saveDone, Act.restartStart,
   Act.restartDone, Act.setEvent, Act.cleanupWake, Act.ack]

def sGood : St :=
  ⟨pW, "m1", false, MainPC.done, SavePC.done, RestartPC.done, CleanupPC.done,
    true, 1, some [SubResult.ok, SubResult.ok], some mkW⟩

def trFail : List Act :=
  [Act.dispatch, Act.restartRaise, Act.saveStart, Act.saveDone,
   Act.setEvent, Act.cleanupWake, Act.ack]

def excW : SubResult :=
  SubResult.exc ("Could not restart " ++ ("ab12" ++ ".example.net"))

def sFail : St :=
  ⟨pW, "m1", true, MainPC.done, SavePC.done, RestartPC.raised,
    CleanupPC.done, true, 1, some [SubResult.ok, excW], some mkW⟩

def pBad : List (String × String) := [("name", "x")]

def trBad : List Act := [Act.parseFail]

def sBad : St :=
  ⟨pBad, "m2", false, MainPC.raisedKeyError, SavePC.notStarted,
    RestartPC.notStarted, CleanupPC.notCreated, false, 0, none, none⟩

theorem inv_init (p : List (String × String)) (mid : String) (f : Bool) :
    PipeInv (initSt p mid f) (initSt p mid f) where
  constP := rfl
  constM := rfl
  constF := rfl
  startI := fun _ => ⟨rfl, rfl, rfl, rfl, rfl, rfl⟩
  raisedI := fun h => nomatch h
  awaitI := fun h => nomatch h
  doneI := fun h => nomatch h
  evI := fun h => nomatch h
  cleanupI := fun h => h.elim (fun h => nomatch h) (fun h => nomatch h)
  ackI := rfl
  failR := fun h => nomatch h
  failOkI := fun h => h.elim (fun h => nomatch h) (fun h => nomatch h)

theorem step_inv {s0 s s' : St} {a : Act} (h : Step s a s') (hI : PipeInv s0 s) :
    PipeInv s0 s' := by
  cases h with
  | parseOk p mid f ev ak rs m name hname =>
    obtain ⟨_, _, _, hev, hrs, hm⟩ := hI.startI rfl
    subst hev; subst hrs; subst hm
    exact
      { constP := hI.constP
        constM := hI.constM
        constF := hI.constF
        startI := fun h => nomatch h
        raisedI := fun h => nomatch h
        awaitI := fun _ =>
          ⟨(fun h => nomatch h), (fun h => nomatch h), rfl, rfl, rfl, ⟨name, hname, rfl⟩⟩
        doneI := fun h => nomatch h
        evI := fun h => nomatch h
        cleanupI := fun h => h.elim (fun h => nomatch h) (fun h => nomatch h)
        ackI := hI.ackI
        failR := fun h => nomatch h
        failOkI := fun h => h.elim (fun h => nomatch h) (fun h => nomatch h) }
  | parseErr p mid f sv rt cl ev ak rs m hname =>
    obtain ⟨hsv, hrt, hcl, hev, hrs, hm⟩ := hI.startI rfl
    subst hsv; subst hrt; subst hcl; subst hev; subst hrs; subst hm
    exact
      { constP := hI.constP
        constM := hI.constM
        constF := hI.constF
        startI := fun h => nomatch h
        raisedI := fun _ => ⟨rfl, rfl, rfl, rfl, rfl, rfl, hname⟩
        awaitI := fun h => nomatch h
        doneI := fun h => nomatch h
        evI := fun h => nomatch h
        cleanupI := fun h => h.elim (fun h => nomatch h) (fun h => nomatch h)
        ackI := hI.ackI
        failR := fun h => nomatch h
        failOkI := fun h => h.elim (fun h => nomatch h) (fun h => nomatch h) }
  | saveSleep p mid f mn rt cl ev ak rs m =>
    exact
      { constP := hI.constP
        constM := hI.constM
        constF := hI.constF
        startI := fun h => nomatch (hI.startI h).1
        raisedI := fun h => nomatch (hI.raisedI h).1
        awaitI := fun h => by
          obtain ⟨_, hrt, hcl, hev, hrs, hname⟩ := hI.awaitI h
          exact ⟨(fun h => nomatch h), hrt, hcl, hev, hrs, hname⟩
        doneI := fun h => nomatch (hI.doneI h).1
        evI := hI.evI
        cleanupI := hI.cleanupI
        ackI := hI.ackI
        failR := hI.failR
        failOkI := hI.failOkI }
  | saveWake p mid f mn rt cl ev ak rs m =>
    exact
      { constP := hI.constP
        constM := hI.constM
        constF := hI.constF
        startI := fun h => nomatch (hI.startI h).1
        raisedI := fun h => nomatch (hI.raisedI h).1
        awaitI := fun h => by
          obtain ⟨_, hrt, hcl, hev, hrs, hname⟩ := hI.awaitI h
          exact ⟨(fun h => nomatch h), hrt, hcl, hev, hrs, hname⟩
        doneI := fun h => nomatch (hI.doneI h).1
        evI := hI.evI
        cleanupI := hI.cleanupI
        ackI := hI.ackI
        failR := hI.failR
        failOkI := hI.failOkI }
  | restartRaiseStep p mid mn sv cl ev ak rs m =>
    exact
      { constP := hI.constP
        constM := hI.constM
        constF := hI.constF
        startI := fun h => nomatch (hI.startI h).2.1
        raisedI := fun h => nomatch (hI.raisedI h).2.1
        awaitI := fun h => by
          obtain ⟨hsv, _, hcl, hev, hrs, hname⟩ := hI.awaitI h
          exact ⟨hsv, (fun h => nomatch h), hcl, hev, hrs, hname⟩
        doneI := fun h =>
          ((hI.doneI h).2.1).elim (fun h => nomatch h) (fun h => nomatch h)
        evI := hI.evI
        cleanupI := hI.cleanupI
        ackI := hI.ackI
        failR := fun _ => rfl
        failOkI := fun h => h.elim (fun h => nomatch h) (fun h => nomatch h) }
  | restartSleep p mid mn sv cl ev ak rs m =>
    exact
      { constP := hI.constP
        constM := hI.constM
        constF := hI.constF
        startI := fun h => nomatch (hI.startI h).2.1
        raisedI := fun h => nomatch (hI.raisedI h).2.1
        awaitI := fun h => by
          obtain ⟨hsv, _, hcl, hev, hrs, hname⟩ := hI.awaitI h
          exact ⟨hsv, (fun h => nomatch h), hcl, hev, hrs, hname⟩
        doneI := fun h =>
          ((hI.doneI h).2.1).elim (fun h => nomatch h) (fun h => nomatch h)
        evI := hI.evI
        cleanupI := hI.cleanupI
        ackI := hI.ackI
        failR := fun h => nomatch h
        failOkI := fun _ => rfl }
  | restartDoneStep p mid f mn sv cl ev ak rs m =>
    exact
      { constP := hI.constP
        constM := hI.constM
        constF := hI.constF
        startI := fun h => nomatch (hI.startI h).2.1
        raisedI := fun h => nomatch (hI.raisedI h).2.1
        awaitI := fun h => by
          obtain ⟨hsv, _, hcl, hev, hrs, hname⟩ := hI.awaitI h
          exact ⟨hsv, (fun h => nomatch h), hcl, hev, hrs, hname⟩
        doneI := fun h =>
          ((hI.doneI h).2.1).elim (fun h => nomatch h) (fun h => nomatch h)
        evI := hI.evI
        cleanupI := hI.cleanupI
        ackI := hI.ackI
        failR := fun h => nomatch h
        failOkI := fun _ => hI.failOkI (Or.inl rfl) }
  | gatherSet p mid f rt cl ev ak rs m hrt =>
    obtain ⟨hsv, hrtne, hcl, hev, hrs, name, hname, hm⟩ := hI.awaitI rfl
    subst hcl; subst hev; subst hrs
    exact
      { constP := hI.constP
        constM := hI.constM
        constF := hI.constF
        startI := fun h => nomatch h
        raisedI := fun h => nomatch h
        awaitI := fun h => nomatch h
        doneI := fun _ => ⟨rfl, hrt, (fun h => nomatch h), rfl, rfl, ⟨name, hname, hm⟩⟩
        evI := fun _ => rfl
        cleanupI := fun h => h.elim (fun h => nomatch h) (fun h => nomatch h)
        ackI := hI.ackI
        failR := hI.failR
        failOkI := hI.failOkI }
  | cleanupWakeStep p mid f mn sv rt ak rs m =>
    have hmn : mn = MainPC.done := hI.evI rfl
    subst hmn
    obtain ⟨hsv, hrtOr, _, _, hres, hex⟩ := hI.doneI rfl
    exact
      { constP := hI.constP
        constM := hI.constM
        constF := hI.constF
        startI := fun h => nomatch h
        raisedI := fun h => nomatch h
        awaitI := fun h => nomatch h
        doneI := fun _ => ⟨hsv, hrtOr, (fun h => nomatch h), rfl, hres, hex⟩
        evI := fun _ => rfl
        cleanupI := fun _ => rfl
        ackI := by simpa using hI.ackI
        failR := hI.failR
        failOkI := hI.failOkI }
  | ackStep p mid f mn sv rt ev ak rs m =>
    have hmn : mn = MainPC.done := hI.cleanupI (Or.inl rfl)
    subst hmn
    obtain ⟨hsv, hrtOr, _, hev, hres, hex⟩ := hI.doneI rfl
    exact
      { constP := hI.constP
        constM := hI.constM
        constF := hI.constF
        startI := fun h => nomatch h
        raisedI := fun h => nomatch h
        awaitI := fun h => nomatch h
        doneI := fun _ => ⟨hsv, hrtOr, (fun h => nomatch h), hev, hres, hex⟩
        evI := fun _ => rfl
        cleanupI := fun _ => rfl
        ackI := by have h0 := hI.ackI; simp at h0 ⊢; omega
        failR := hI.failR
        failOkI := hI.failOkI }

theorem exec_inv {s0 s s' : St} {tr : List Act} (hI : PipeInv s0 s)
    (h : Exec s tr s') : PipeInv s0 s' := by
  induction h with
  | refl s => exact hI
  | cons hstep _ ih => exact ih (step_inv hstep hI)

theorem exec_trans {s0 s s' : St} {t1 t2 : List Act}
    (h1 : Exec s0 t1 s) (h2 : Exec s t2 s') : Exec s0 (t1 ++ t2) s' := by
  induction h1 with
  | refl s => exact h2
  | cons hstep _ ih => exact Exec.cons hstep (ih h2)

theorem exec_append_split {s0 s : St} {t1 t2 : List Act}
    (h : Exec s0 (t1 ++ t2) s) : ∃ m, Exec s0 t1 m ∧ Exec m t2 s := by
  induction t1 generalizing s0 with
  | nil => exact ⟨s0, Exec.refl s0, h⟩
  | cons a t1 ih =>
    cases h with
    | cons hstep hrest =>
      obtain ⟨m, hm1, hm2⟩ := ih hrest
      exact ⟨m, Exec.cons hstep hm1, hm2⟩

theorem step_counts {s s' : St} {a : Act} (h : Step s a s') :
    s'.ackCount = s.ackCount + (if a = Act.ack then 1 else 0) ∧
    saveDoneN s' = saveDoneN s + (if a = Act.saveDone then 1 else 0) ∧
    restartTermN s' = restartTermN s +
      (if a = Act.restartRaise ∨ a = Act.restartDone then 1 else 0) ∧
    cleanupDoneN s' = cleanupDoneN s + (if a = Act.ack then 1 else 0) := by
  cases h <;> simp [saveDoneN, restartTermN, cleanupDoneN]

theorem exec_counts {s s' : St} {tr : List Act} (h : Exec s tr s') :
    s'.ackCount = s.ackCount + actCount Act.ack tr ∧
    saveDoneN s' = saveDoneN s + actCount Act.saveDone tr ∧
    restartTermN s' = restartTermN s + actCount Act.restartRaise tr +
      actCount Act.restartDone tr ∧
    cleanupDoneN s' = cleanupDoneN s + actCount Act.ack tr := by
  induction h with
  | refl s => simp [actCount]
  | cons hstep _ ih =>
    obtain ⟨c1, c2, c3, c4⟩ := step_counts hstep
    obtain ⟨d1, d2, d3, d4⟩ := ih
    refine ⟨?_, ?_, ?_, ?_⟩ <;>
      simp [actCount, d1, d2, d3, d4, c1, c2, c3, c4] <;>
      rename_i a _ _ <;> cases a <;> simp <;> omega

/-! ## Completed runs

A pipeline state is stuck exactly when its run is complete: either the parse
raised `KeyError` (nothing was ever started), or every task has finished and
the message was acked. -/

theorem stuck_cases {s0 s : St} (hI : PipeInv s0 s)
    (hstuck : ∀ a s', ¬ Step s a s') :
    (s.main = MainPC.raisedKeyError ∧
       s.payload.lookup "instance_name" = none ∧
       s.save = SavePC.notStarted ∧ s.restart = RestartPC.notStarted ∧
       s.cleanup = CleanupPC.notCreated ∧ s.eventSet = false ∧
       s.results = none ∧ s.ackCount = 0) ∨
    (s.main = MainPC.done ∧ s.save = SavePC.done ∧
       (s.restart = RestartPC.done ∨ s.restart = RestartPC.raised) ∧
       s.cleanup = CleanupPC.done ∧ s.eventSet = true ∧ s.ackCount = 1) := by
  obtain ⟨p, mid, f, mn, sv, rt, cl, ev, ak, rs, m⟩ := s
  cases mn with
  | start =>
    obtain ⟨hsv, hrt, hcl, hev, hrs, hm⟩ := hI.startI rfl
    subst hsv; subst hrt; subst hcl; subst hev; subst hrs; subst hm
    cases hp : p.lookup "instance_name" with
    | some name =>
      exact absurd (Step.parseOk p mid f false ak none none name hp)
        (hstuck _ _)
    | none =>
      exact absurd
        (Step.parseErr p mid f SavePC.notStarted RestartPC.notStarted
          CleanupPC.notCreated false ak none none hp) (hstuck _ _)
  | awaitingGather =>
    obtain ⟨hsv, hrt, hcl, hev, hrs, _⟩ := hI.awaitI rfl
    subst hcl; subst hev; subst hrs
    cases hv : sv with
    | notStarted => exact absurd hv hsv
    | running =>
      subst hv
      exact absurd (Step.saveSleep p mid f MainPC.awaitingGather rt
        CleanupPC.waiting false ak none m) (hstuck _ _)
    | sleeping =>
      subst hv
      exact absurd (Step.saveWake p mid f MainPC.awaitingGather rt
        CleanupPC.waiting false ak none m) (hstuck _ _)
    | done =>
      subst hv
      cases hr : rt with
      | notStarted => exact absurd hr hrt
      | running =>
        subst hr
        cases f with
        | false =>
          exact absurd (Step.restartSleep p mid MainPC.awaitingGather
            SavePC.done CleanupPC.waiting false ak none m) (hstuck _ _)
        | true =>
          exact absurd (Step.restartRaiseStep p mid MainPC.awaitingGather
            SavePC.done CleanupPC.waiting false ak none m) (hstuck _ _)
      | sleeping =>
        subst hr
        exact absurd (Step.restartDoneStep p mid f MainPC.awaitingGather
          SavePC.done CleanupPC.waiting false ak none m) (hstuck _ _)
      | done =>
        subst hr
        exact absurd (Step.gatherSet p mid f RestartPC.done CleanupPC.waiting
          false ak none m (Or.inl rfl)) (hstuck _ _)
      | raised =>
        subst hr
        exact absurd (Step.gatherSet p mid f RestartPC.raised CleanupPC.waiting
          false ak none m (Or.inr rfl)) (hstuck _ _)
  | raisedKeyError =>
    obtain ⟨hsv, hrt, hcl, hev, hrs, hm, hlook⟩ := hI.raisedI rfl
    subst hsv; subst hrt; subst hcl; subst hev; subst hrs; subst hm
    exact Or.inl ⟨rfl, hlook, rfl, rfl, rfl, rfl, rfl, by simpa using hI.ackI⟩
  | done =>
    obtain ⟨hsv, hrtOr, hclne, hev, hres, _⟩ := hI.doneI rfl
    subst hsv; subst hev
    cases hc : cl with
    | notCreated => exact absurd hc hclne
    | waiting =>
      subst hc
      exact absurd (Step.cleanupWakeStep p mid f MainPC.done SavePC.done rt
        ak rs m) (hstuck _ _)
    | sleeping =>
      subst hc
      exact absurd (Step.ackStep p mid f MainPC.done SavePC.done rt true ak
        rs m) (hstuck _ _)
    | done =>
      subst hc
      exact Or.inr ⟨rfl, rfl, hrtOr, rfl, rfl, by simpa using hI.ackI⟩

/-- `drainQ` is indeed iterated `getQ`. -/
theorem drainQ_eq_getQ (q : List (Nat × String)) :
    drainQ q = match getQ q with
      | none => []
      | some (x, xs) => x :: drainQ xs := by
  cases q <;> rfl

/-! ## Mailbox lemmas -/

theorem foldl_putQ (out : List (Nat × String)) :
    ∀ q, List.foldl putQ q out = q ++ out := by
  induction out with
  | nil => intro q; simp
  | cons x xs ih => intro q; simp [putQ, ih]

theorem drainQ_id (q : List (Nat × String)) : drainQ q = q := by
  induction q with
  | nil => rfl
  | cons x xs ih => simp [drainQ, ih]

theorem flatten_of_all_nil {ls : List (List (Nat × String))}
    (h : ∀ l ∈ ls, l = []) : ls.flatten = [] := by
  induction ls with
  | nil => rfl
  | cons l t ih =>
    rw [List.flatten_cons, h l (List.mem_cons_self l t), ih]
    · rfl
    · exact fun l' hl' => h l' (List.mem_cons_of_mem l hl')

/-- Everything injected is processed, nothing more: a merged processing order
is a permutation of the union of the per-thread injection lists. -/
theorem merge_perm {ls : List (List (Nat × String))}
    {out : List (Nat × String)} (hm : Merge ls out) : out.Perm ls.flatten := by
  induction hm with
  | nil ls h => rw [flatten_of_all_nil h]
  | cons ls j x xs out h hx hm ih =>
    have hdecomp : ls.take j ++ ls[j] :: ls.drop (j + 1) = ls := by
      rw [List.getElem_cons_drop ls j h, List.take_append_drop]
    have hset : ls.set j xs = ls.take j ++ xs :: ls.drop (j + 1) :=
      List.set_eq_take_cons_drop xs h
    have key : ls.flatten =
        (ls.take j).flatten ++ (x :: (xs ++ (ls.drop (j + 1)).flatten)) := by
      conv_lhs => rw [← hdecomp]
      rw [List.flatten_append, List.flatten_cons, hx]
      simp
    have setkey : (ls.set j xs).flatten =
        (ls.take j).flatten ++ (xs ++ (ls.drop (j + 1)).flatten) := by
      rw [hset, List.flatten_append, List.flatten_cons]
    rw [key]
    have ih2 : out.Perm
        ((ls.take j).flatten ++ (xs ++ (ls.drop (j + 1)).flatten)) :=
      setkey ▸ ih
    exact (ih2.cons x).trans
      (@List.perm_middle _ x (ls.take j).flatten
        (xs ++ (ls.drop (j + 1)).flatten)).symm

/-- Per-thread FIFO: filtering a merged processing order by a thread's tag
recovers exactly that thread's injection list, in its order. -/
theorem merge_proj {ls : List (List (Nat × String))}
    {out : List (Nat × String)} (hm : Merge ls out) :
    (∀ j, (hj : j < ls.length) → ∀ q ∈ ls[j], q.1 = j) →
    ∀ i, (hi : i < ls.length) →
      out.filter (fun q => q.1 == i) = ls[i] := by
  induction hm with
  | nil ls h =>
    intro _ i hi
    have hnil := h ls[i] (List.getElem_mem hi)
    simp [hnil]
  | cons ls j x xs out h hx hm ih =>
    intro htags i hi
    have hxj : x.1 = j := by
      refine htags j h x ?_
      rw [hx]
      exact List.mem_cons_self x xs
    have htags2 : ∀ j', (hj' : j' < (ls.set j xs).length) →
        ∀ q ∈ (ls.set j xs)[j'], q.1 = j' := by
      intro j' hj' q hq
      have hj'l : j' < ls.length := by simpa using hj'
      rw [List.getElem_set] at hq
      by_cases hjj : j = j'
      · subst hjj
        rw [if_pos rfl] at hq
        refine htags j h q ?_
        rw [hx]
        exact List.mem_cons_of_mem x hq
      · rw [if_neg hjj] at hq
        exact htags j' hj'l q hq
    have ihi := ih htags2 i (by simpa using hi)
    by_cases hij : i = j
    · subst hij
      rw [List.filter_cons, if_pos (by simp [hxj])]
      rw [ihi, List.getElem_set, if_pos rfl]
      exact hx.symm
    · rw [List.filter_cons, if_neg (by simp [hxj]; omega)]
      rw [ihi, List.getElem_set, if_neg (by omega)]

/-! ## Further helper lemmas -/

theorem step_main_preserve {s s' : St} {a : Act} (h : Step s a s') :
    s.main = MainPC.awaitingGather ∨ s.main = MainPC.done →
    s'.main = MainPC.awaitingGather ∨ s'.main = MainPC.done := by
  cases h <;> intro hh <;> rcases hh with hh | hh <;> simp_all

theorem exec_main_preserve {s s' : St} {tr : List Act} (h : Exec s tr s') :
    s.main = MainPC.awaitingGather ∨ s.main = MainPC.done →
    s'.main = MainPC.awaitingGather ∨ s'.main = MainPC.done := by
  induction h with
  | refl s => exact id
  | cons hstep _ ih => exact fun hh => ih (step_main_preserve hstep hh)

/-- The parsed `PubSubMessage` of a pipeline, once constructed, is never
replaced or modified by any later step of that pipeline. -/
theorem msg_preserved {p : List (String × String)} {mid : String} {f : Bool}
    {tr tr' : List Act} {s s' : St} {m0 : PubSubMessage}
    (h1 : Exec (initSt p mid f) tr s) (h2 : Exec s tr' s')
    (hm : s.msg = some m0) : s'.msg = some m0 := by
  have hI : PipeInv (initSt p mid f) s := exec_inv (inv_init p mid f) h1
  have hI' : PipeInv (initSt p mid f) s' := exec_inv hI h2
  have hmain : s.main = MainPC.awaitingGather ∨ s.main = MainPC.done := by
    cases hmn : s.main with
    | start =>
      have hnone := (hI.startI hmn).2.2.2.2.2
      rw [hm] at hnone
      exact nomatch hnone
    | raisedKeyError =>
      have hnone := (hI.raisedI hmn).2.2.2.2.2.1
      rw [hm] at hnone
      exact nomatch hnone
    | awaitingGather => exact Or.inl rfl
    | done => exact Or.inr rfl
  have hmain' := exec_main_preserve h2 hmain
  have hex : ∃ name, s.payload.lookup "instance_name" = some name ∧
      s.msg = some (mkPubSubMessage name s.messageId) := by
    rcases hmain with hh | hh
    · exact (hI.awaitI hh).2.2.2.2.2
    · exact (hI.doneI hh).2.2.2.2.2
  have hex' : ∃ name, s'.payload.lookup "instance_name" = some name ∧
      s'.msg = some (mkPubSubMessage name s'.messageId) := by
    rcases hmain' with hh | hh
    · exact (hI'.awaitI hh).2.2.2.2.2
    · exact (hI'.doneI hh).2.2.2.2.2
  obtain ⟨name, hlook, hmsg⟩ := hex
  obtain ⟨name', hlook', hmsg'⟩ := hex'
  rw [hI.constP] at hlook
  rw [hI'.constP] at hlook'
  rw [hlook] at hlook'
  have hnn : name = name' := by
    cases hlook'
    rfl
  rw [hm] at hmsg
  rw [hI.constM] at hmsg
  rw [hmsg', ← hnn, hI'.constM]
  exact hmsg.symm

theorem publish_loop_all_ok (outs : List (Except String Unit))
    (h : ∀ o ∈ outs, o = Except.ok ()) :
    publish_loop outs = (PublishLoopStatus.running, outs.length) := by
  induction outs with
  | nil => rfl
  | cons o rest ih =>
    have ho := h o (List.mem_cons_self o rest)
    subst ho
    have := ih (fun o' ho' => h o' (List.mem_cons_of_mem _ ho'))
    simp [publish_loop, publish_iteration, this]

theorem choiceChar_mem (n : Nat) : choiceChar n ∈ CHOICES := by
  have hlt : n % CHOICES.length < CHOICES.length := by
    refine Nat.mod_lt _ ?_
    decide
  rw [choiceChar, List.getD_eq_getElem?_getD, List.getElem?_eq_getElem hlt]
  exact List.getElem_mem hlt

/-- A complete successful run of one pipeline (both sub-tasks succeed). -/
theorem execGood : Exec (initSt pW "m1" false) trGood sGood :=
  Exec.cons (Step.parseOk pW "m1" false false 0 none none "ab12" rfl)
    (Exec.cons (Step.saveSleep pW "m1" false MainPC.awaitingGather
        RestartPC.running CleanupPC.waiting false 0 none (some mkW))
      (Exec.cons (Step.saveWake pW "m1" false MainPC.awaitingGather
          RestartPC.running CleanupPC.waiting false 0 none (some mkW))
        (Exec.cons (Step.restartSleep pW "m1" MainPC.awaitingGather
            SavePC.done CleanupPC.waiting false 0 none (some mkW))
          (Exec.cons (Step.restartDoneStep pW "m1" false
              MainPC.awaitingGather SavePC.done CleanupPC.waiting false 0
              none (some mkW))
            (Exec.cons (Step.gatherSet pW "m1" false RestartPC.done
                CleanupPC.waiting false 0 none (some mkW) (Or.inl rfl))
              (Exec.cons (Step.cleanupWakeStep pW "m1" false MainPC.done
                  SavePC.done RestartPC.done 0
                  (some [SubResult.ok, SubResult.ok]) (some mkW))
                (Exec.cons (Step.ackStep pW "m1" false MainPC.done
                    SavePC.done RestartPC.done true 0
                    (some [SubResult.ok, SubResult.ok]) (some mkW))
                  (Exec.refl sGood))))))))

/-- A complete run in which `restart_host` raises immediately: `save` still
completes, the event is still set, the message is still acked. -/
theorem execFail : Exec (initSt pW "m1" true) trFail sFail :=
  Exec.cons (Step.parseOk pW "m1" true false 0 none none "ab12" rfl)
    (Exec.cons (Step.restartRaiseStep pW "m1" MainPC.awaitingGather
        SavePC.running CleanupPC.waiting false 0 none (some mkW))
      (Exec.cons (Step.saveSleep pW "m1" true MainPC.awaitingGather
          RestartPC.raised CleanupPC.waiting false 0 none (some mkW))
        (Exec.cons (Step.saveWake pW "m1" true MainPC.awaitingGather
            RestartPC.raised CleanupPC.waiting false 0 none (some mkW))
          (Exec.cons (Step.gatherSet pW "m1" true RestartPC.raised
              CleanupPC.waiting false 0 none (some mkW) (Or.inr rfl))
            (Exec.cons (Step.cleanupWakeStep pW "m1" true MainPC.done
                SavePC.done RestartPC.raised 0
                (some [SubResult.ok, excW]) (some mkW))
              (Exec.cons (Step.ackStep pW "m1" true MainPC.done SavePC.done
                  RestartPC.raised true 0 (some [SubResult.ok, excW])
                  (some mkW))
                (Exec.refl sFail)))))))

/-- A run on a malformed payload: `KeyError` before anything is started. -/
theorem execBad : Exec (initSt pBad "m2" false) trBad sBad :=
  Exec.cons (Step.parseErr pBad "m2" false SavePC.notStarted
      RestartPC.notStarted CleanupPC.notCreated false 0 none none rfl)
    (Exec.refl sBad)

/-- The completed successful run is stuck: nothing is left to schedule. -/
theorem sGood_stuck : ∀ (a : Act) (s' : St), ¬ Step sGood a s' :=
  fun _ _ h => nomatch h

/-- The completed failing run is stuck: nothing is left to schedule. -/
theorem sFail_stuck : ∀ (a : Act) (s' : St), ¬ Step sFail a s' :=
  fun _ _ h => nomatch h

/-! ## Claims -/

/-- C5: for every valid payload, the constructed message's `hostname` equals
its `instance_name` concatenated with the literal `".example.net"`, computed
at construction by `__attrs_post_init__` from that message's own
`instance_name` (and `instance_name`/`message_id` are stored unchanged, so
nothing is carried over from another message). -/
theorem c5_hostname_derived (n mid : String) :
    (mkPubSubMessage n mid).hostname = n ++ ".example.net" ∧
    (mkPubSubMessage n mid).instance_name = n ∧
    (mkPubSubMessage n mid).message_id = mid :=
  ⟨rfl, rfl, rfl⟩

/-- C6 (counterexample): the claim says the type itself forbids field
reassignment, i.e. `setattr` raises `FrozenInstanceError`; but
`PubSubMessage` is declared `@attr.s` without `frozen=True`, so assignment
succeeds and changes `instance_name` on a concrete instance. -/
theorem c6_not_frozen_cex :
    setattr_instance_name (mkPubSubMessage "abcd" "m1") "zzzz" ≠
      Except.error "FrozenInstanceError" ∧
    setattr_instance_name (mkPubSubMessage "abcd" "m1") "zzzz" =
      Except.ok
        { instance_name := "zzzz", message_id := "m1",
          hostname := "abcd" ++ ".example.net" } := by
  constructor
  · intro h
    rw [setattr_instance_name] at h
    simp [pubsub_message_frozen] at h
  · rfl

/-- C6 (amended): `hostname` is fixed at construction and no operation of
the program ever changes a constructed message (the pipeline carries the
parsed message unmodified through every step), but the type does NOT forbid
reassignment: `@attr.s` defaults to `frozen=False`, so `setattr` on an
instance succeeds. -/
theorem c6_immutability_amended (m : PubSubMessage) (v : String)
    (p : List (String × String)) (mid : String) (f : Bool)
    (tr tr' : List Act) (s s' : St) (m0 : PubSubMessage)
    (h1 : Exec (initSt p mid f) tr s) (h2 : Exec s tr' s')
    (hm : s.msg = some m0) :
    pubsub_message_frozen = false ∧
    setattr_instance_name m v = Except.ok { m with instance_name := v } ∧
    s'.msg = some m0 :=
  ⟨rfl, rfl, msg_preserved h1 h2 hm⟩

/-- C6 (amended) witness at a concrete run: after dispatch the message stays
`mkW` through the rest of the run. -/
theorem c6_immutability_amended_witness :
    pubsub_message_frozen = false ∧
    setattr_instance_name (mkPubSubMessage "abcd" "m1") "zzzz" =
      Except.ok
        { mkPubSubMessage "abcd" "m1" with instance_name := "zzzz" } ∧
    sGood.msg = some mkW := by
  refine c6_immutability_amended (mkPubSubMessage "abcd" "m1") "zzzz" pW "m1"
    false trGood [] sGood sGood mkW execGood (Exec.refl sGood) rfl

/-- C3 (counterexample): the claim says a failing `publish_sync` is logged
and the loop continues; but the loop body has no try/except, so a raising
iteration leaves the loop dead and no later iteration runs. -/
theorem c3_publish_failure_kills_loop_cex :
    publish_iteration (Except.error "TransportError") =
      PublishLoopStatus.dead "TransportError" ∧
    publish_iteration (Except.error "TransportError") ≠
      PublishLoopStatus.running ∧
    publish_loop [Except.error "TransportError", Except.ok ()] =
      (PublishLoopStatus.dead "TransportError", 0) :=
  ⟨rfl, by decide, rfl⟩

/-- C3 (amended): if the offloaded `publish_sync` raises, the exception
propagates out of `publish` (there is no handler) and terminates the
periodic loop with zero further iterations; the loop keeps running exactly
as long as every `publish_sync` call returns normally. -/
theorem c3_publish_loop_error_propagates (e : String)
    (outs : List (Except String Unit)) (h : ∀ o ∈ outs, o = Except.ok ()) :
    publish_iteration (Except.error e) = PublishLoopStatus.dead e ∧
    publish_iteration (Except.ok ()) = PublishLoopStatus.running ∧
    publish_loop (Except.error e :: outs) = (PublishLoopStatus.dead e, 0) ∧
    publish_loop outs = (PublishLoopStatus.running, outs.length) :=
  ⟨rfl, rfl, rfl, publish_loop_all_ok outs h⟩

/-- C3 (amended) witness at a concrete outcome stream. -/
theorem c3_publish_loop_error_propagates_witness :
    publish_iteration (Except.error "boom") = PublishLoopStatus.dead "boom" ∧
    publish_iteration (Except.ok ()) = PublishLoopStatus.running ∧
    publish_loop [Except.error "boom", Except.ok (), Except.ok ()] =
      (PublishLoopStatus.dead "boom", 0) ∧
    publish_loop [Except.ok (), Except.ok ()] =
      (PublishLoopStatus.running, 2) := by
  have hh := c3_publish_loop_error_propagates "boom"
    [Except.ok (), Except.ok ()] ?_
  · simpa using hh
  · intro o ho
    simp only [List.mem_cons, List.not_mem_nil, or_false] at ho
    rcases ho with h1 | h1 <;> exact h1

/-- C9: `publish_sync` publishes exactly 5 messages (`for msg in
range(1, 6)`), and each published payload is the UTF-8 JSON object for an
`instance_name` of exactly 4 characters drawn from
`string.ascii_lowercase + string.digits`. -/
theorem c9_publish_sync_five (rand : Nat → Nat → Nat) :
    (publish_sync rand).length = 5 ∧
    ∀ s ∈ publish_sync rand, ∃ name : String,
      s = json_dumps_payload name ∧ name.length = 4 ∧
      ∀ c ∈ name.toList, c ∈ CHOICES := by
  constructor
  · rfl
  · intro s hs
    rw [publish_sync, List.mem_map] at hs
    obtain ⟨m, _, hm⟩ := hs
    refine ⟨randomName (rand m), hm.symm, ?_, ?_⟩
    · rfl
    · intro c hc
      rw [randomName] at hc
      have hc2 : c ∈ (List.range 4).map fun i => choiceChar (rand m i) := hc
      rw [List.mem_map] at hc2
      obtain ⟨i, _, hi⟩ := hc2
      rw [← hi]
      exact choiceChar_mem (rand m i)

/-- C10: `save` has no raise statement, so its gather slot is never an
exception (the first gathered result is always a plain return); only
`restart_host` can fail, it fails exactly when its `randrange(1, 3)` draw is
2, and in that case it raises before performing any of its simulated work
(no sleep, no log). -/
theorem c10_save_never_fails (msg : PubSubMessage) (rand_int d d2 : Nat)
    (p : List (String × String)) (mid : String) (f : Bool)
    (tr : List Act) (s : St) (rs : List SubResult)
    (hexec : Exec (initSt p mid f) tr s) (hres : s.results = some rs) :
    (save msg d).2 = none ∧
    ((restart_host msg rand_int d2).2 ≠ none ↔ rand_int = 2) ∧
    ((restart_host msg rand_int d2).2 ≠ none →
      (restart_host msg rand_int d2).1 = []) ∧
    rs.head? = some SubResult.ok := by
  have hI := exec_inv (inv_init p mid f) hexec
  refine ⟨rfl, ?_, ?_, ?_⟩
  · rw [restart_host]
    by_cases h2 : rand_int = 2 <;> simp [h2]
  · rw [restart_host]
    by_cases h2 : rand_int = 2 <;> simp [h2]
  · cases hmn : s.main with
    | start =>
      have hnone := (hI.startI hmn).2.2.2.2.1
      rw [hres] at hnone
      exact nomatch hnone
    | awaitingGather =>
      have hnone := (hI.awaitI hmn).2.2.2.2.1
      rw [hres] at hnone
      exact nomatch hnone
    | raisedKeyError =>
      have hnone := (hI.raisedI hmn).2.2.2.2.1
      rw [hres] at hnone
      exact nomatch hnone
    | done =>
      have hsome := (hI.doneI hmn).2.2.2.2.1
      rw [hres] at hsome
      cases hsome
      rfl

/-- C10 witness at the completed failing run: `rand_int = 2`, the raise
happens with an empty effect list, and the first gathered result of the run
is `save`'s plain return. -/
theorem c10_save_never_fails_witness :
    (save mkW 1).2 = none ∧
    ((restart_host mkW 2 1).2 ≠ none ↔ 2 = 2) ∧
    ((restart_host mkW 2 1).2 ≠ none → (restart_host mkW 2 1).1 = []) ∧
    ([SubResult.ok, excW].head? = some SubResult.ok) :=
  c10_save_never_fails mkW 2 1 1 pW "m1" true trFail sFail
    [SubResult.ok, excW] execFail rfl

theorem initSt_payload (p : List (String × String)) (mid : String)
    (f : Bool) : (initSt p mid f).payload = p := rfl

theorem initSt_messageId (p : List (String × String)) (mid : String)
    (f : Bool) : (initSt p mid f).messageId = mid := rfl

theorem initSt_fail (p : List (String × String)) (mid : String)
    (f : Bool) : (initSt p mid f).fail = f := rfl

/-- C4: a payload without the `instance_name` key makes `handle_message`
raise `KeyError` before dispatch: in every state of such a pipeline no
sub-task was ever started, the cleanup task was never created, the event is
never set, and `ack` is never invoked. -/
theorem c4_malformed_no_dispatch (p : List (String × String)) (mid : String)
    (f : Bool) (tr : List Act) (s : St)
    (hmiss : p.lookup "instance_name" = none)
    (hexec : Exec (initSt p mid f) tr s) :
    s.save = SavePC.notStarted ∧ s.restart = RestartPC.notStarted ∧
    s.cleanup = CleanupPC.notCreated ∧ s.eventSet = false ∧
    s.results = none ∧ s.ackCount = 0 ∧ actCount Act.ack tr = 0 := by
  have hI := exec_inv (inv_init p mid f) hexec
  have hcp : s.payload = p := hI.constP.trans (initSt_payload p mid f)
  have hmain : s.main = MainPC.start ∨ s.main = MainPC.raisedKeyError := by
    cases hmn : s.main with
    | start => exact Or.inl rfl
    | raisedKeyError => exact Or.inr rfl
    | awaitingGather =>
      obtain ⟨name, hlook, _⟩ := (hI.awaitI hmn).2.2.2.2.2
      rw [hcp, hmiss] at hlook
      exact nomatch hlook
    | done =>
      obtain ⟨name, hlook, _⟩ := (hI.doneI hmn).2.2.2.2.2
      rw [hcp, hmiss] at hlook
      exact nomatch hlook
  have hfacts : s.save = SavePC.notStarted ∧ s.restart = RestartPC.notStarted ∧
      s.cleanup = CleanupPC.notCreated ∧ s.eventSet = false ∧
      s.results = none := by
    rcases hmain with hmn | hmn
    · obtain ⟨h1, h2, h3, h4, h5, _⟩ := hI.startI hmn
      exact ⟨h1, h2, h3, h4, h5⟩
    · obtain ⟨h1, h2, h3, h4, h5, _⟩ := hI.raisedI hmn
      exact ⟨h1, h2, h3, h4, h5⟩
  obtain ⟨h1, h2, h3, h4, h5⟩ := hfacts
  have hak : s.ackCount = 0 := by
    have := hI.ackI
    rw [h3] at this
    simpa using this
  have hcount : actCount Act.ack tr = 0 := by
    have hc := (exec_counts hexec).2.2.2
    rw [cleanupDoneN, h3] at hc
    simp [cleanupDoneN, initSt] at hc
    omega
  exact ⟨h1, h2, h3, h4, h5, hak, hcount⟩

/-- C4 witness: the concrete malformed run. -/
theorem c4_malformed_no_dispatch_witness :
    sBad.save = SavePC.notStarted ∧ sBad.restart = RestartPC.notStarted ∧
    sBad.cleanup = CleanupPC.notCreated ∧ sBad.eventSet = false ∧
    sBad.results = none ∧ sBad.ackCount = 0 ∧ actCount Act.ack trBad = 0 :=
  c4_malformed_no_dispatch pBad "m2" false trBad sBad rfl execBad

/-- C2: with `restart_host` failing (`rand_int == 2`), in every completed
run of the pipeline the sibling `save` still ran to completion, the failure
did not propagate out of `handle_message` (it finished normally), both
gather slots were collected with the exception as a value, `handle_results`
merely logs it, the event was still set and the message still acked. -/
theorem c2_failure_isolated (p : List (String × String)) (mid name : String)
    (tr : List Act) (s : St)
    (hparse : p.lookup "instance_name" = some name)
    (hexec : Exec (initSt p mid true) tr s)
    (hstuck : ∀ (a : Act) (s' : St), ¬ Step s a s') :
    s.save = SavePC.done ∧ s.main = MainPC.done ∧ s.eventSet = true ∧
    s.ackCount = 1 ∧
    s.results = some [SubResult.ok,
      SubResult.exc ("Could not restart " ++ (name ++ ".example.net"))] ∧
    handle_results [SubResult.ok,
      SubResult.exc ("Could not restart " ++ (name ++ ".example.net"))] =
      ["Caught exception: " ++
        ("Could not restart " ++ (name ++ ".example.net"))] := by
  have hI := exec_inv (inv_init p mid true) hexec
  have hcp : s.payload = p := hI.constP.trans (initSt_payload p mid true)
  have hcm : s.messageId = mid := hI.constM.trans (initSt_messageId p mid true)
  have hcf : s.fail = true := hI.constF.trans (initSt_fail p mid true)
  rcases stuck_cases hI hstuck with hL | hR
  · have h2 := hL.2.1
    rw [hcp, hparse] at h2
    exact nomatch h2
  · obtain ⟨hmn, hsv, hrtOr, hcl, hev, hak⟩ := hR
    have hrt : s.restart = RestartPC.raised := by
      rcases hrtOr with hrt | hrt
      · have hf := hI.failOkI (Or.inr hrt)
        rw [hcf] at hf
        exact nomatch hf
      · exact hrt
    obtain ⟨_, _, _, _, hres, name', hlook', hmsg'⟩ := hI.doneI hmn
    have h3 := hlook'
    rw [hcp, hparse] at h3
    cases h3
    rw [hcm] at hmsg'
    rw [hrt, hmsg'] at hres
    have hred : restartRes RestartPC.raised
        (some (mkPubSubMessage name mid)) =
        SubResult.exc ("Could not restart " ++ (name ++ ".example.net")) :=
      rfl
    rw [hred] at hres
    exact ⟨hsv, hmn, hev, hak, hres, rfl⟩

/-- C2 witness: the concrete failing run. -/
theorem c2_failure_isolated_witness :
    sFail.save = SavePC.done ∧ sFail.main = MainPC.done ∧
    sFail.eventSet = true ∧ sFail.ackCount = 1 ∧
    sFail.results = some [SubResult.ok,
      SubResult.exc ("Could not restart " ++ ("ab12" ++ ".example.net"))] ∧
    handle_results [SubResult.ok,
      SubResult.exc ("Could not restart " ++ ("ab12" ++ ".example.net"))] =
      ["Caught exception: " ++
        ("Could not restart " ++ ("ab12" ++ ".example.net"))] :=
  c2_failure_isolated pW "m1" "ab12" trFail sFail rfl execFail sFail_stuck

/-- C1: for a successfully parsed message, `pubsub_msg.ack()` is invoked at
most once along any schedule, exactly once in any completed run, and any
occurrence of the ack in the trace is strictly preceded by the terminal step
of `save` and by the terminal step (return or raise) of `restart_host`; the
gate event is what enforces this, being set only after the gather over the
sub-tasks completes. -/
theorem c1_ack_after_all_exactly_once (p : List (String × String))
    (mid name : String) (f : Bool) (tr : List Act) (s : St)
    (hparse : p.lookup "instance_name" = some name)
    (hexec : Exec (initSt p mid f) tr s) :
    (∀ i, (hi : i < tr.length) → tr[i] = Act.ack →
       1 ≤ actCount Act.saveDone (tr.take i) ∧
       1 ≤ actCount Act.restartRaise (tr.take i) +
         actCount Act.restartDone (tr.take i)) ∧
    actCount Act.ack tr ≤ 1 ∧
    ((∀ (a : Act) (s' : St), ¬ Step s a s') → actCount Act.ack tr = 1) := by
  have hI := exec_inv (inv_init p mid f) hexec
  refine ⟨?_, ?_, ?_⟩
  · intro i hi hack
    have hsplit : tr = tr.take i ++ tr.drop i :=
      (List.take_append_drop i tr).symm
    have hdrop : tr.drop i = Act.ack :: tr.drop (i + 1) := by
      rw [← hack]
      exact (List.getElem_cons_drop tr i hi).symm
    have hexec2 := hexec
    rw [hsplit, hdrop] at hexec2
    obtain ⟨mstate, hpre, hpost⟩ := exec_append_split hexec2
    have hIm := exec_inv (inv_init p mid f) hpre
    cases hpost with
    | cons hstep _ =>
      cases hstep with
      | ackStep p2 mid2 f2 mn sv rt ev ak rs2 m2 =>
        have hmn : mn = MainPC.done := hIm.cleanupI (Or.inl rfl)
        subst hmn
        obtain ⟨hsv, hrtOr, _, _, _, _⟩ := hIm.doneI rfl
        have hsv2 : sv = SavePC.done := hsv
        have hrtOr2 : rt = RestartPC.done ∨ rt = RestartPC.raised := hrtOr
        subst hsv2
        obtain ⟨_, c2, c3, _⟩ := exec_counts hpre
        constructor
        · have c2b : (1 : Nat) = 0 + actCount Act.saveDone (tr.take i) := c2
          omega
        · rcases hrtOr2 with hrt | hrt <;> subst hrt
          · have c3b : (1 : Nat) = 0 + actCount Act.restartRaise (tr.take i) +
                actCount Act.restartDone (tr.take i) := c3
            omega
          · have c3b : (1 : Nat) = 0 + actCount Act.restartRaise (tr.take i) +
                actCount Act.restartDone (tr.take i) := c3
            omega
  · have c4 := (exec_counts hexec).2.2.2
    have h0 : cleanupDoneN (initSt p mid f) = 0 := rfl
    rw [h0] at c4
    have hle : cleanupDoneN s ≤ 1 := by
      rw [cleanupDoneN]
      split <;> omega
    omega
  · intro hstuck
    rcases stuck_cases hI hstuck with hL | hR
    · have h2 := hL.2.1
      rw [hI.constP.trans (initSt_payload p mid f), hparse] at h2
      exact nomatch h2
    · have c1 := (exec_counts hexec).1
      have hak := hR.2.2.2.2.2
      have h0 : (initSt p mid f).ackCount = 0 := rfl
      rw [h0, hak] at c1
      omega

/-- C1 witness: the concrete successful run, whose final state is stuck. -/
theorem c1_ack_after_all_exactly_once_witness :
    (∀ i, (hi : i < trGood.length) → trGood[i] = Act.ack →
       1 ≤ actCount Act.saveDone (trGood.take i) ∧
       1 ≤ actCount Act.restartRaise (trGood.take i) +
         actCount Act.restartDone (trGood.take i)) ∧
    actCount Act.ack trGood ≤ 1 ∧
    ((∀ (a : Act) (s' : St), ¬ Step sGood a s') →
      actCount Act.ack trGood = 1) :=
  c1_ack_after_all_exactly_once pW "m1" "ab12" false trGood sGood rfl execGood

/-- C7: the ingest loop spawns each pipeline without awaiting it, so with A
at the head of the queue and B behind it, the system reaches — in three
steps, none of which advances A's pipeline — a state where B's pipeline has
been spawned and has dispatched (its sub-tasks and cleanup task started)
while A's pipeline is still in its initial state, untouched, no matter what
A's payload is or how long A's pipeline would take. -/
theorem c7_ingest_never_blocks (A B : RawMsg) (rest : List RawMsg)
    (ps : List St) (name : String)
    (hB : B.payload.lookup "instance_name" = some name) :
    ∃ (s2 : SysSt) (stB : St),
      SysExec ⟨A :: B :: rest, ps⟩ s2 ∧
      s2.queue = rest ∧
      s2.pipelines = (ps ++ [initRaw A]) ++ [stB] ∧
      stB.main = MainPC.awaitingGather ∧ stB.save = SavePC.running ∧
      stB.restart = RestartPC.running ∧ stB.cleanup = CleanupPC.waiting := by
  refine ⟨⟨rest, (ps ++ [initRaw A]) ++
      [⟨B.payload, B.message_id, B.fail, MainPC.awaitingGather,
        SavePC.running, RestartPC.running, CleanupPC.waiting, false, 0,
        none, some (mkPubSubMessage name B.message_id)⟩]⟩,
    ⟨B.payload, B.message_id, B.fail, MainPC.awaitingGather, SavePC.running,
      RestartPC.running, CleanupPC.waiting, false, 0, none,
      some (mkPubSubMessage name B.message_id)⟩,
    ?_, rfl, rfl, rfl, rfl, rfl, rfl⟩
  refine SysExec.cons (SysStep.dequeue A (B :: rest) ps) ?_
  refine SysExec.cons (SysStep.dequeue B rest (ps ++ [initRaw A])) ?_
  refine SysExec.cons (SysStep.pipe rest (ps ++ [initRaw A]) [] (initRaw B)
    _ Act.dispatch
    (Step.parseOk B.payload B.message_id B.fail false 0 none none name hB))
    (SysExec.refl _)

/-- C7 witness at concrete messages. -/
theorem c7_ingest_never_blocks_witness :
    ∃ (s2 : SysSt) (stB : St),
      SysExec ⟨⟨pBad, "mA", false⟩ :: ⟨pW, "mB", false⟩ :: [], []⟩ s2 ∧
      s2.queue = [] ∧
      s2.pipelines = ([] ++ [initRaw ⟨pBad, "mA", false⟩]) ++ [stB] ∧
      stB.main = MainPC.awaitingGather ∧ stB.save = SavePC.running ∧
      stB.restart = RestartPC.running ∧ stB.cleanup = CleanupPC.waiting :=
  c7_ingest_never_blocks ⟨pBad, "mA", false⟩ ⟨pW, "mB", false⟩ [] [] "ab12"
    rfl

/-- C8: under concurrent injection from multiple callback threads — each
thread's per-message `run_coroutine_threadsafe(add_to_queue(msg), loop)`
calls executing on the loop in some interleaving that preserves each
thread's submission order — the queue receives every injected item exactly
once: draining the queue returns the processing order itself, which is a
permutation of the union of the per-thread injection lists, and filtering it
by a thread's tag recovers that thread's items in their original order. -/
theorem c8_mailbox_no_loss_no_dup (ls : List (List (Nat × String)))
    (out : List (Nat × String))
    (htags : ∀ j, (hj : j < ls.length) → ∀ q ∈ ls[j], q.1 = j)
    (hm : Merge ls out) :
    drainQ (out.foldl putQ []) = out ∧
    out.Perm ls.flatten ∧
    ∀ i, (hi : i < ls.length) →
      out.filter (fun q => q.1 == i) = ls[i] := by
  refine ⟨?_, merge_perm hm, merge_proj hm htags⟩
  rw [foldl_putQ, List.nil_append, drainQ_id]

/-- C8 witness: two threads, one interleaving. -/
theorem c8_mailbox_no_loss_no_dup_witness :
    drainQ ([((0 : Nat), "a"), (1, "c"), (0, "b")].foldl putQ []) =
      [((0 : Nat), "a"), (1, "c"), (0, "b")] ∧
    ([((0 : Nat), "a"), (1, "c"), (0, "b")] : List (Nat × String)).Perm
      ([[((0 : Nat), "a"), (0, "b")], [(1, "c")]] :
        List (List (Nat × String))).flatten ∧
    ∀ i, (hi : i < ([[((0 : Nat), "a"), (0, "b")], [(1, "c")]] :
        List (List (Nat × String))).length) →
      ([((0 : Nat), "a"), (1, "c"), (0, "b")] : List (Nat × String)).filter
          (fun q => q.1 == i) =
        ([[((0 : Nat), "a"), (0, "b")], [(1, "c")]] :
          List (List (Nat × String)))[i] := by
  refine c8_mailbox_no_loss_no_dup
    [[((0 : Nat), "a"), (0, "b")], [(1, "c")]]
    [((0 : Nat), "a"), (1, "c"), (0, "b")] ?_ ?_
  · decide
  · refine Merge.cons _ 0 ((0 : Nat), "a") [(0, "b")] _ (by decide) rfl ?_
    refine Merge.cons _ 1 ((1 : Nat), "c") [] _ (by decide) rfl ?_
    refine Merge.cons _ 0 ((0 : Nat), "b") [] _ (by decide) rfl ?_
    refine Merge.nil _ ?_
    decide

/-- C5 witness at a concrete name. -/
theorem c5_hostname_derived_witness :
    (mkPubSubMessage "ab12" "m1").hostname = "ab12" ++ ".example.net" ∧
    (mkPubSubMessage "ab12" "m1").instance_name = "ab12" ∧
    (mkPubSubMessage "ab12" "m1").message_id = "m1" :=
  c5_hostname_derived "ab12" "m1"

/-- C9 witness at a concrete random source. -/
theorem c9_publish_sync_five_witness :
    (publish_sync (fun m i => m + i)).length = 5 ∧
    ∀ s ∈ publish_sync (fun m i => m + i), ∃ name : String,
      s = json_dumps_payload name ∧ name.length = 4 ∧
      ∀ c ∈ name.toList, c ∈ CHOICES :=
  c9_publish_sync_five (fun m i => m + i)
